import Mathlib

/-!
Shallow embedding of the Wheel Horse Spin multiplayer room server
(`multiplayer-race/server.js`): room state machine, lane allocation,
boost validation, per-tick motion integration, completion detection and
results compilation.

Conventions of the embedding:
* JS numbers are modelled as exact rationals (`ℚ`); millisecond
  timestamps as integers (`ℤ`).
* A JS field that can be `undefined`/`null` (or become `NaN` through
  arithmetic on `undefined`) is modelled as an `Option`; `none` stands
  for undefined/null/NaN.  JS truthiness of such numeric fields is
  `isSome` together with a nonzero check (`0` is falsy in JS).
* `Math.random()` draws are passed in explicitly through environments
  (`StartRand`, `TickRand`), one named draw per call site.
* Wire messages are collected into a list; the distinction between
  `broadcast` and a single `send` is immaterial to the properties here.
-/

namespace WheelHorse

/-! ### Constants (default environment values from server.js) -/

def TOTAL_LANES : ℕ := 8
def COUNTDOWN_SECONDS : ℤ := 3
def BOOST_FACTOR : ℚ := 2
def IDLE_SPEED_FACTOR : ℚ := 3/5
def ACCELERATION_RATE : ℚ := 1/4
def DECELERATION_RATE : ℚ := 1/5
def BOT_IDLE_SPEED_FACTOR : ℚ := IDLE_SPEED_FACTOR
def BOT_ACCELERATION_RATE : ℚ := 1/4
def BOT_DECELERATION_RATE : ℚ := 11/50
def BOT_BOOST_PROB_PER_TICK : ℚ := 3/20
def BOOST_MAX_DURATION_MS : ℤ := 300
def BOOST_COOLDOWN_MS : ℤ := 50
def FINISH_DECELERATION_DURATION_MS : ℚ := 2000
def BOT_BOOST_ENABLE_PROB : ℚ := 4/5
def MAX_EXECUTION_TIME : ℚ := 10

/-- `const baseSpeed = (1 / MAX_EXECUTION_TIME) * 1.2` -/
def baseSpeed : ℚ := (1 / MAX_EXECUTION_TIME) * (6/5)

/-! ### JS coercion helpers -/

/-- JS `a || b` for a number `a`: `0` (and `NaN`) is falsy. -/
def jsOrQ (a b : ℚ) : ℚ := if a = 0 then b else a

/-- JS `a || b` where `a` may be undefined/null/NaN (`none`). -/
def jsOrOptQ (a : Option ℚ) (b : ℚ) : ℚ :=
  match a with
  | none => b
  | some v => jsOrQ v b

/-- JS `a || b` on two possibly-undefined numbers, keeping NaN propagation. -/
def jsOrOpt (a b : Option ℚ) : Option ℚ :=
  match a with
  | none => b
  | some v => if v = 0 then b else some v

/-- JS `a || b` for an optional integer timestamp. -/
def jsOrOptZ (a : Option ℤ) (b : ℤ) : ℤ :=
  match a with
  | none => b
  | some v => if v = 0 then b else v

/-- JS truthiness of an optional millisecond timestamp (`0` is falsy). -/
def truthyZ (o : Option ℤ) : Bool :=
  match o with
  | none => false
  | some t => t ≠ 0

/-- JS truthiness of an optional client id (`0` is falsy; real ids start at 1). -/
def truthyN (o : Option ℕ) : Bool :=
  match o with
  | none => false
  | some n => n ≠ 0

/-- JS `x - y` where either side may be undefined/NaN. -/
def jsSub (a b : Option ℚ) : Option ℚ :=
  match a, b with
  | some x, some y => some (x - y)
  | _, _ => none

/-- JS `Math.max(0, x)` where `x` may be NaN (NaN propagates). -/
def jsMax0 (a : Option ℚ) : Option ℚ :=
  match a with
  | some x => some (max 0 x)
  | none => none

/-- JS `x >= 1` where `x` may be undefined/NaN (comparisons with NaN are false). -/
def jsGe1 (a : Option ℚ) : Bool :=
  match a with
  | some x => decide (x ≥ 1)
  | none => false

/-- JS `x <= 0` where `x` may be undefined/NaN. -/
def jsLe0 (a : Option ℚ) : Bool :=
  match a with
  | some x => decide (x ≤ 0)
  | none => false

/-- JS `+q.toFixed(3)`: round to three decimals; on a tie ECMA-262 picks the
larger candidate, which is Mathlib's `round` (half up). -/
def round3 (q : ℚ) : ℚ := ((round (q * 1000) : ℤ) : ℚ) / 1000

/-! ### Data model -/

/-- `room.phase` -/
inductive Phase
  | lobby
  | countdown
  | race
  | results
deriving DecidableEq

/-- A human participant (`room.players` map entry together with the per-race
runtime fields installed by `startRace`). Fields that are absent until first
assigned in JS are `Option`s. -/
structure Player where
  id : ℕ
  username : String
  ready : Bool
  lane : Option ℕ
  joinMs : ℤ
  progress : Option ℚ
  finished : Bool
  finishSecs : Option ℚ
  boostDown : Bool
  boostSinceMs : Option ℤ
  lastBoostStartMs : Option ℤ
  lastBoostEndMs : Option ℤ
  currentSpeed : Option ℚ
  finishDecelStartMs : Option ℤ
  finishSpeed : Option ℚ
  fullyFinished : Bool
deriving DecidableEq

/-- A bot (`room.bots` entry). `allocateLanes` creates bots with only
`username`/`lane` set; `startRace` installs the runtime fields. -/
structure Bot where
  username : String
  lane : ℕ
  progress : Option ℚ
  finished : Bool
  finishSecs : Option ℚ
  currentSpeed : Option ℚ
  biasFactor : Option ℚ
  jitterScale : Option ℚ
  boostPreference : Option ℚ
  finishDecelStartMs : Option ℤ
  finishSpeed : Option ℚ
  fullyFinished : Bool
deriving DecidableEq

/-- Participant identity inside a results entry: players use their client id,
bots use the string tag built from their lane. -/
inductive RId
  | human (id : ℕ)
  | bot (lane : ℕ)
deriving DecidableEq

/-- One entry of the compiled `raceEnd` results list. -/
structure Entry where
  rid : RId
  username : String
  lane : Option ℕ
  finishSecs : Option ℚ
  isBot : Bool
  deltaSecs : Option ℚ
deriving DecidableEq

/-- Snapshot of a player inside a `tick` payload. -/
structure PView where
  id : ℕ
  lane : Option ℕ
  progress : Option ℚ
  finished : Bool
  currentSpeed : ℚ
deriving DecidableEq

/-- Snapshot of a bot inside a `tick` payload. -/
structure BView where
  lane : ℕ
  progress : Option ℚ
  finished : Bool
  currentSpeed : ℚ
deriving DecidableEq

/-- Outbound frames (fields irrelevant to every claim, such as the echoed
constants table, are elided). -/
inductive Msg
  | welcome (clientId : ℕ) (roomId : String) (hostId : Option ℕ)
  | roomState (phase : Phase) (hostId : Option ℕ)
      (players : List (ℕ × Bool × Option ℕ)) (bots : List (String × ℕ))
  | countdown (secondsLeft : ℤ) (countdownEndsAt : ℤ)
  | raceStart (raceStartEpochMs : ℤ)
  | tick (tServerMs : ℤ) (players : Option (List PView)) (bots : Option (List BView))
  | boost (playerId : ℕ) (down : Bool) (atClientMs : ℤ) (accepted : Bool)
      (cooldownMsRemaining : Option ℤ) (reason : Option String)
  | raceEnd (winnerId : Option RId) (results : List Entry)
deriving DecidableEq

/-- One room (`createRoom` shape; timers are modelled by `tickActive`). -/
structure Room where
  id : String
  phase : Phase
  hostId : Option ℕ
  players : List Player
  bots : List Bot
  readySet : List ℕ
  countdownEndsAt : Option ℤ
  raceStartEpochMs : Option ℤ
  raceId : Option String
  seeds : List (ℕ × ℕ)
  tickActive : Bool
  lastUpdateMs : Option ℤ
deriving DecidableEq

/-- `createRoom(roomId)` -/
def createRoom (roomId : String) : Room :=
  { id := roomId, phase := .lobby, hostId := none, players := [], bots := [],
    readySet := [], countdownEndsAt := none, raceStartEpochMs := none,
    raceId := none, seeds := [], tickActive := false, lastUpdateMs := none }

/-! ### Lane allocation -/

/-- A bot as freshly pushed by `allocateLanes`: only `username` and `lane`
are set, every runtime field is still undefined. -/
def mkFreshBot (username : String) (lane : ℕ) : Bot :=
  { username := username, lane := lane, progress := none, finished := false,
    finishSecs := none, currentSpeed := none, biasFactor := none,
    jitterScale := none, boostPreference := none, finishDecelStartMs := none,
    finishSpeed := none, fullyFinished := false }

/-- `allocateLanes(room)`: sort the players by `joinMs` (JS sort is stable),
give the i-th sorted player `lanes[i]` (undefined past `TOTAL_LANES`), then
rebuild `room.bots` with fresh bots on the remaining lanes. -/
def allocateLanes (r : Room) : Room :=
  let sortedIds :=
    (List.insertionSort (fun a b : Player => a.joinMs ≤ b.joinMs) r.players).map (·.id)
  let players' := r.players.map fun p =>
    { p with lane := (List.range TOTAL_LANES)[sortedIds.indexOf p.id]? }
  let humans := r.players.length
  let bots' := ((List.range TOTAL_LANES).drop humans).map fun i =>
    mkFreshBot ("Bot_" ++ toString (i + 1 - humans)) i
  { r with players := players', bots := bots' }

/-- `roomStatePayload(room)` (usernames/lastResult/constants elided). -/
def roomStatePayload (r : Room) : Msg :=
  .roomState r.phase r.hostId
    (r.players.map fun p => (p.id, p.ready, p.lane))
    (r.bots.map fun b => (b.username, b.lane))

/-! ### Phase entry helpers -/

/-- `startCountdown(room)` -/
def startCountdown (now : ℤ) (r : Room) : Room × List Msg :=
  let endsAt := now + COUNTDOWN_SECONDS * 1000
  let r := { r with phase := .countdown, countdownEndsAt := some endsAt,
                    tickActive := true }
  (r, [.countdown COUNTDOWN_SECONDS endsAt])

/-- Uniform random draws consumed by `startRace`, one per `Math.random()`
call site, keyed by player id (seeds) or bot lane (personality). -/
structure StartRand where
  seedDraw : ℕ → ℕ
  botDraw1 : ℕ → ℚ
  botDraw2 : ℕ → ℚ
  botDraw3 : ℕ → ℚ

/-- `startRace(room)` -/
def startRace (now : ℤ) (rand : StartRand) (r : Room) : Room × List Msg :=
  let r := { r with phase := .race,
                    raceId := some (r.id ++ "-" ++ toString now),
                    raceStartEpochMs := some now }
  let r := { r with seeds := r.players.map fun p => (p.id, rand.seedDraw p.id) }
  let r := allocateLanes r
  let players' := r.players.map fun p =>
    { p with progress := some 0, finished := false, finishSecs := none,
             boostDown := false, boostSinceMs := none, lastBoostStartMs := none,
             lastBoostEndMs := none, currentSpeed := some 0,
             finishDecelStartMs := none, fullyFinished := false }
  let bots' := r.bots.map fun b =>
    { b with progress := some 0, finished := false, finishSecs := none,
             currentSpeed := some 0,
             biasFactor := some (17/20 + rand.botDraw1 b.lane * (3/10)),
             jitterScale := some (1/2 + rand.botDraw2 b.lane * 1),
             boostPreference := some (rand.botDraw3 b.lane),
             finishDecelStartMs := none, fullyFinished := false }
  let r := { r with players := players', bots := bots',
                    lastUpdateMs := some now, tickActive := true }
  (r, [.raceStart now])

/-- `endRace(room, results)`: `updateRace` always passes the object
`{winnerId, results}`, so the try-block's winner derivation reduces to the
given `winnerId`.  Database persistence is outside this core. -/
def endRace (winnerId : Option RId) (results : List Entry) (r : Room) :
    Room × List Msg :=
  let players' := r.players.map fun p => { p with ready := false }
  let r := { r with phase := .results, players := players', readySet := [],
                    tickActive := false }
  (r, [.raceEnd winnerId results])

/-! ### Race simulation (`updateRace`) -/

/-- Uniform random draws consumed by one `updateRace` tick: players draw a
jitter in the racing branch and one more in the deceleration branch (keyed by
id); bots draw two boost-decision values and up to two jitters (keyed by
lane). -/
structure TickRand where
  pJit1 : ℕ → ℚ
  pJit2 : ℕ → ℚ
  bBoost1 : ℕ → ℚ
  bBoost2 : ℕ → ℚ
  bJit1 : ℕ → ℚ
  bJit2 : ℕ → ℚ

/-- `targetSpeed(boostActive)` inside `updateRace`. -/
def targetSpeed (boostActive : Bool) : ℚ :=
  baseSpeed * (if boostActive then BOOST_FACTOR else IDLE_SPEED_FACTOR)

/-- `applyJitter(spd, scale)` with the uniform draw `u` made explicit:
`spd * (1 + (u - 0.5) * 0.06 * scale)`. -/
def applyJitter (u spd scale : ℚ) : ℚ :=
  spd * (1 + (u - 1/2) * (3/50) * scale)

/-- Whether a player's boost is active this tick:
`p.boostDown && p.boostSinceMs && (now - p.boostSinceMs) <= BOOST_MAX_DURATION_MS`. -/
def boostActiveAt (now : ℤ) (p : Player) : Bool :=
  p.boostDown && truthyZ p.boostSinceMs &&
    decide (now - p.boostSinceMs.getD 0 ≤ BOOST_MAX_DURATION_MS)

/-- The clamped speed integration shared by the player and bot racing blocks:
`delta = tSpd - v; step = delta > 0 ? min(delta, maxUp) : max(delta, -maxDown);
v + step`. -/
def integrateSpeed (v tSpd maxUp maxDown : ℚ) : ℚ :=
  let delta := tSpd - v
  let step := if delta > 0 then min delta maxUp else max delta (-maxDown)
  v + step

/-- The racing block of the player update (`if (!p.finished) { … }` in
`updateRace`): boost auto-expiry, speed integration toward the target, and
jittered progress advance. -/
def playerRacePhase (now : ℤ) (dtSec : ℚ) (rand : TickRand) (p : Player) :
    Player × List Msg :=
  let boostActive := boostActiveAt now p
  let afterBoost : Player × List Msg :=
    if p.boostDown && !boostActive then
      ({ p with boostDown := false, lastBoostEndMs := some now },
       [.boost p.id false now true none (some "auto-expire")])
    else (p, [])
  let p := afterBoost.1
  let cs1 := integrateSpeed (jsOrOptQ p.currentSpeed 0) (targetSpeed boostActive)
    (ACCELERATION_RATE * dtSec) (DECELERATION_RATE * dtSec)
  let spd := applyJitter (rand.pJit1 p.id) cs1 1
  ({ p with currentSpeed := some cs1,
            progress := p.progress.map (· + spd * dtSec) },
   afterBoost.2)

/-- The finish-line block (`if (p.progress >= 1 && !p.finished) { … }`). -/
def playerFinishCheck (now raceStart : ℤ) (p : Player) : Player :=
  if jsGe1 p.progress && !p.finished then
    { p with finished := true,
             finishSecs := some ((((now : ℚ)) - ((raceStart : ℚ))) / 1000),
             finishDecelStartMs := some now,
             finishSpeed := p.currentSpeed }
  else p

/-- The post-finish deceleration block
(`if (p.finished && !p.fullyFinished) { … }`). -/
def playerDecelPhase (dtSec : ℚ) (rand : TickRand) (p : Player) : Player :=
  if p.finished && !p.fullyFinished then
    let decelBase := jsOrOpt p.finishSpeed p.currentSpeed
    let decelRatePerSec :=
      decelBase.map (· / (FINISH_DECELERATION_DURATION_MS / 1000))
    let speedDrop := decelRatePerSec.map (· * dtSec)
    let newSpeed := jsMax0 (jsSub p.currentSpeed speedDrop)
    let spd := newSpeed.map fun v => applyJitter (rand.pJit2 p.id) v 1
    let progress' :=
      match p.progress, spd with
      | some pr, some s => some (pr + s * dtSec)
      | _, _ => none
    let p := { p with currentSpeed := newSpeed, progress := progress' }
    if jsLe0 p.currentSpeed then
      { p with fullyFinished := true, currentSpeed := some 0 }
    else p
  else p

/-- The player part of one `updateRace` tick: racing motion (skipped once
finished), finish-line capture, then post-finish deceleration.  `raceStart`
is `room.raceStartEpochMs` with JS null-to-0 coercion already applied. -/
def tickPlayer (now : ℤ) (raceStart : ℤ) (dtSec : ℚ) (rand : TickRand)
    (p : Player) : Player × List Msg :=
  if p.fullyFinished then (p, []) else
  let step1 : Player × List Msg :=
    if p.finished then (p, []) else playerRacePhase now dtSec rand p
  let p := playerFinishCheck now raceStart step1.1
  let p := playerDecelPhase dtSec rand p
  (p, step1.2)

/-- The bot's per-tick boost decision: `boostChance` (personality-scaled
probability; comparison with an undefined preference is NaN-false) gated by
`BOT_BOOST_ENABLE_PROB`. -/
def botBoostDecision (rand : TickRand) (b : Bot) : Bool :=
  let boostChance :=
    match b.boostPreference with
    | some bp =>
        decide (rand.bBoost1 b.lane < BOT_BOOST_PROB_PER_TICK * (1/2 + bp))
    | none => false
  boostChance && decide (rand.bBoost2 b.lane < BOT_BOOST_ENABLE_PROB)

/-- The bot's target speed: `BOOST_FACTOR` while self-boosting, otherwise the
idle factor scaled by the bot's bias (`b.biasFactor || 1`). -/
def botTargetSpeed (rand : TickRand) (b : Bot) : ℚ :=
  baseSpeed * (if botBoostDecision rand b then BOOST_FACTOR
               else BOT_IDLE_SPEED_FACTOR * jsOrOptQ b.biasFactor 1)

/-- The racing block of the bot update. -/
def botRacePhase (dtSec : ℚ) (rand : TickRand) (b : Bot) : Bot :=
  let cs1 := integrateSpeed (jsOrOptQ b.currentSpeed 0) (botTargetSpeed rand b)
    (BOT_ACCELERATION_RATE * dtSec) (BOT_DECELERATION_RATE * dtSec)
  let spd := applyJitter (rand.bJit1 b.lane) cs1 (jsOrOptQ b.jitterScale 1)
  { b with currentSpeed := some cs1,
           progress := b.progress.map (· + spd * dtSec) }

/-- The bot finish-line block. -/
def botFinishCheck (now raceStart : ℤ) (b : Bot) : Bot :=
  if jsGe1 b.progress && !b.finished then
    { b with finished := true,
             finishSecs := some ((((now : ℚ)) - ((raceStart : ℚ))) / 1000),
             finishDecelStartMs := some now,
             finishSpeed := b.currentSpeed }
  else b

/-- The bot post-finish deceleration block. -/
def botDecelPhase (dtSec : ℚ) (rand : TickRand) (b : Bot) : Bot :=
  if b.finished && !b.fullyFinished then
    let decelBase := jsOrOpt b.finishSpeed b.currentSpeed
    let decelRatePerSec :=
      decelBase.map (· / (FINISH_DECELERATION_DURATION_MS / 1000))
    let speedDrop := decelRatePerSec.map (· * dtSec)
    let newSpeed := jsMax0 (jsSub b.currentSpeed speedDrop)
    let spd := newSpeed.map fun v => applyJitter (rand.bJit2 b.lane) v (jsOrOptQ b.jitterScale 1)
    let progress' :=
      match b.progress, spd with
      | some pr, some s => some (pr + s * dtSec)
      | _, _ => none
    let b := { b with currentSpeed := newSpeed, progress := progress' }
    if jsLe0 b.currentSpeed then
      { b with fullyFinished := true, currentSpeed := some 0 }
    else b
  else b

/-- The bot part of one `updateRace` tick. -/
def tickBot (now : ℤ) (raceStart : ℤ) (dtSec : ℚ) (rand : TickRand)
    (b : Bot) : Bot :=
  if b.fullyFinished then b else
  let b := if b.finished then b else botRacePhase dtSec rand b
  let b := botFinishCheck now raceStart b
  botDecelPhase dtSec rand b

/-- The sort key of the results comparator
`(a,b) => a.finishSeconds - b.finishSeconds`: JS coerces a null
`finishSeconds` to 0. -/
def resultKey (e : Entry) : ℚ := e.finishSecs.getD 0

/-- `results.forEach(r => r.deltaSeconds = winnerTime != null ?
+(r.finishSeconds - winnerTime).toFixed(3) : null)`. -/
def withDeltas (results : List Entry) : List Entry :=
  let winnerTime := results.head?.bind (·.finishSecs)
  results.map fun e =>
    { e with deltaSecs := winnerTime.map fun w => round3 (e.finishSecs.getD 0 - w) }

/-- The comparator relation of `results.sort((a,b) => a.finishSeconds -
b.finishSeconds)`. -/
def entryLe (a b : Entry) : Prop := resultKey a ≤ resultKey b

instance : DecidableRel entryLe := fun a b =>
  inferInstanceAs (Decidable (resultKey a ≤ resultKey b))

instance : IsTotal Entry entryLe := ⟨fun a b => le_total (resultKey a) (resultKey b)⟩

instance : IsTrans Entry entryLe := ⟨fun _ _ _ => le_trans⟩

/-- The unsorted results roster: players first, then bots. -/
def resultEntries (players : List Player) (bots : List Bot) : List Entry :=
  players.map (fun p =>
    { rid := .human p.id, username := p.username, lane := p.lane,
      finishSecs := p.finishSecs, isBot := false, deltaSecs := none : Entry }) ++
  bots.map (fun b =>
    { rid := .bot b.lane, username := b.username, lane := some b.lane,
      finishSecs := b.finishSecs, isBot := true, deltaSecs := none : Entry })

/-- Compile the `raceEnd` results: players then bots, sorted ascending by
`finishSeconds` (JS TimSort is stable, as is insertion sort), then deltas. -/
def compileResults (players : List Player) (bots : List Bot) : List Entry :=
  withDeltas (List.insertionSort entryLe (resultEntries players bots))

/-- Concatenate per-participant message lists. -/
def catMsgs (ls : List (List Msg)) : List Msg := ls.foldr (· ++ ·) []

/-- `updateRace(room)`. -/
def updateRace (now : ℤ) (rand : TickRand) (r : Room) : Room × List Msg :=
  if r.phase ≠ .race then (r, []) else
  let dtMs : ℤ := if truthyZ r.lastUpdateMs then now - r.lastUpdateMs.getD 0 else 0
  let r := { r with lastUpdateMs := some now }
  let dtSec : ℚ := (dtMs : ℚ) / 1000
  let raceStart : ℤ := r.raceStartEpochMs.getD 0
  let pOut := r.players.map (tickPlayer now raceStart dtSec rand)
  let players' := pOut.map Prod.fst
  let pMsgs := catMsgs (pOut.map Prod.snd)
  let bots' := r.bots.map (tickBot now raceStart dtSec rand)
  let r := { r with players := players', bots := bots' }
  let allPlayersFinished := players'.all (·.fullyFinished)
  let allBotsFinished := bots'.all (·.fullyFinished)
  if allPlayersFinished && allBotsFinished then
    let results := compileResults players' bots'
    let winnerId := results.head?.map (·.rid)
    let out := endRace winnerId results r
    (out.1, pMsgs ++ out.2)
  else
    (r, pMsgs)

/-- The `setInterval` tick callback: run the simulation while racing, then
broadcast the tick payload (with the race snapshot only while still racing). -/
def tickEvent (now : ℤ) (rand : TickRand) (r : Room) : Room × List Msg :=
  let out := if r.phase = .race then updateRace now rand r else (r, [])
  let r := out.1
  let payload :=
    if r.phase = .race then
      Msg.tick now
        (some (r.players.map fun p =>
          { id := p.id, lane := p.lane, progress := p.progress,
            finished := p.finished, currentSpeed := jsOrOptQ p.currentSpeed 0 }))
        (some (r.bots.map fun b =>
          { lane := b.lane, progress := b.progress, finished := b.finished,
            currentSpeed := jsOrOptQ b.currentSpeed 0 }))
    else Msg.tick now none none
  (r, out.2 ++ [payload])

/-! ### Message handlers (one room; the registry routing is immaterial) -/

/-- `room.players.set(clientId, player)`: a JS `Map` keeps the original
position of an existing key and appends new keys. -/
def mapSet (ps : List Player) (p : Player) : List Player :=
  if ps.any (·.id = p.id) then ps.map (fun q => if q.id = p.id then p else q)
  else ps ++ [p]

/-- Replace the stored player carrying `p.id` (JS mutates the shared object). -/
def updatePlayer (r : Room) (p : Player) : Room :=
  { r with players := r.players.map fun q => if q.id = p.id then p else q }

/-- The `hello` handler (after external sanitization of the name). -/
def helloHandler (clientId : ℕ) (username : String) (now : ℤ) (r : Room) :
    Room × List Msg :=
  let p : Player :=
    { id := clientId, username := username, ready := false, lane := none,
      joinMs := now, progress := none, finished := false, finishSecs := none,
      boostDown := false, boostSinceMs := none, lastBoostStartMs := none,
      lastBoostEndMs := none, currentSpeed := none, finishDecelStartMs := none,
      finishSpeed := none, fullyFinished := false }
  let r := { r with players := mapSet r.players p }
  let r := if truthyN r.hostId then r else { r with hostId := some clientId }
  let r := allocateLanes r
  (r, [.welcome clientId r.id r.hostId, roomStatePayload r])

/-- The `setReady` handler. -/
def setReadyHandler (sender : ℕ) (ready : Bool) (r : Room) : Room × List Msg :=
  match r.players.find? (·.id = sender) with
  | none => (r, [])
  | some player =>
    let r := updatePlayer r { player with ready := ready }
    let r :=
      if ready then
        { r with readySet := if sender ∈ r.readySet then r.readySet else r.readySet ++ [sender] }
      else
        { r with readySet := r.readySet.filter (· ≠ sender) }
    (r, [roomStatePayload r])

/-- The `startGame` handler.  The scheduled `setTimeout(startRace, …)` is a
separate event (`Event.startRaceFire`). -/
def startGameHandler (sender : ℕ) (now : ℤ) (r : Room) : Room × List Msg :=
  if r.hostId ≠ some sender then (r, []) else
  let playerCount := r.players.length
  let readyCount := (r.players.filter (·.ready)).length
  let canStart := playerCount = 1 ∨ readyCount = playerCount
  if playerCount ≥ 1 ∧ canStart ∧ r.phase = .lobby then
    startCountdown now r
  else (r, [])

/-- The `pressBoost` handler. -/
def pressBoostHandler (sender : ℕ) (down : Bool) (atClientMs : Option ℤ)
    (now : ℤ) (r : Room) : Room × List Msg :=
  if r.phase ≠ .race then (r, []) else
  match r.players.find? (·.id = sender) with
  | none => (r, [])
  | some player =>
    if down then
      let canStart := !truthyZ player.lastBoostEndMs ||
        decide (now - player.lastBoostEndMs.getD 0 ≥ BOOST_COOLDOWN_MS)
      if canStart && !player.boostDown then
        let p' := { player with boostDown := true, boostSinceMs := some now,
                                lastBoostStartMs := some now }
        (updatePlayer r p',
         [.boost sender true (jsOrOptZ atClientMs now) true none none])
      else
        (r, [.boost sender true (jsOrOptZ atClientMs now) false
              (if truthyZ player.lastBoostEndMs then
                 some (BOOST_COOLDOWN_MS - (now - player.lastBoostEndMs.getD 0))
               else none) none])
    else
      if player.boostDown then
        let p' := { player with boostDown := false, lastBoostEndMs := some now }
        (updatePlayer r p',
         [.boost sender false (jsOrOptZ atClientMs now) true none none])
      else (r, [])

/-- The `returnToLobby` handler (note: no phase guard in the source). -/
def returnToLobbyHandler (sender : ℕ) (r : Room) : Room × List Msg :=
  if r.hostId ≠ some sender then (r, []) else
  if r.players.length ≥ 2 then
    let r := { r with phase := .lobby, tickActive := false }
    (r, [roomStatePayload r])
  else (r, [])

/-- The `resetGame` handler. -/
def resetGameHandler (sender : ℕ) (r : Room) : Room × List Msg :=
  if r.hostId ≠ some sender then (r, []) else
  if r.phase = .results then
    let players' := r.players.map fun p =>
      { p with ready := false, progress := some 0, currentSpeed := some 0,
               finished := false, fullyFinished := false, finishSecs := none,
               finishDecelStartMs := none, finishSpeed := none,
               boostDown := false, boostSinceMs := none,
               lastBoostStartMs := none, lastBoostEndMs := none }
    let r := { r with players := players', readySet := [], phase := .lobby,
                      tickActive := false }
    (r, [roomStatePayload r])
  else (r, [])

/-- The `rename` handler (`newName` is the already-sanitized string; the
empty string is what sanitization returns on invalid input and is falsy). -/
def renameHandler (sender : ℕ) (newName : String) (r : Room) : Room × List Msg :=
  if r.phase = .race then (r, []) else
  if newName = "" then (r, []) else
  match r.players.find? (·.id = sender) with
  | none => (r, [])
  | some player =>
    let r := updatePlayer r { player with username := newName }
    (r, [roomStatePayload r])

/-- The `ws.on('close')` handler. -/
def disconnectHandler (clientId : ℕ) (r : Room) : Room × List Msg :=
  match r.players.find? (·.id = clientId) with
  | none => (r, [])
  | some player =>
    let players' := r.players.filter (fun q => q.id ≠ clientId)
    let wasHost := r.hostId = some player.id
    let r := { r with players := players' }
    let r := if wasHost then { r with hostId := players'.head?.map (·.id) } else r
    let r := allocateLanes r
    let msgs := [roomStatePayload r]
    if r.players.length = 0 then
      let r := { r with tickActive := false, phase := .lobby, readySet := [],
                        countdownEndsAt := none, raceStartEpochMs := none }
      (r, msgs ++ [roomStatePayload r])
    else if r.phase = .results ∧ wasHost then
      let r := { r with tickActive := false, phase := .lobby, readySet := [],
                        countdownEndsAt := none, raceStartEpochMs := none }
      (r, msgs ++ [roomStatePayload r])
    else (r, msgs)

/-! ### The event step -/

/-- Every callback that can touch a room: inbound messages, the disconnect
handler, the periodic tick and the scheduled race start. -/
inductive Event
  | hello (clientId : ℕ) (username : String)
  | setReady (sender : ℕ) (ready : Bool)
  | startGame (sender : ℕ)
  | pressBoost (sender : ℕ) (down : Bool) (atClientMs : Option ℤ)
  | returnToLobby (sender : ℕ)
  | resetGame (sender : ℕ)
  | rename (sender : ℕ) (username : String)
  | disconnect (clientId : ℕ)
  | tick (rand : TickRand)
  | startRaceFire (rand : StartRand)

/-- Dispatch one event at server time `now`. -/
def step (now : ℤ) (e : Event) (r : Room) : Room × List Msg :=
  match e with
  | .hello clientId username => helloHandler clientId username now r
  | .setReady sender ready => setReadyHandler sender ready r
  | .startGame sender => startGameHandler sender now r
  | .pressBoost sender down atClientMs => pressBoostHandler sender down atClientMs now r
  | .returnToLobby sender => returnToLobbyHandler sender r
  | .resetGame sender => resetGameHandler sender r
  | .rename sender username => renameHandler sender username r
  | .disconnect clientId => disconnectHandler clientId r
  | .tick rand => tickEvent now rand r
  | .startRaceFire rand => startRace now rand r

/-- Run a timed event trace, collecting all emitted frames. -/
def runTrace (es : List (ℤ × Event)) (r : Room) : Room × List Msg :=
  match es with
  | [] => (r, [])
  | (now, e) :: rest =>
    let out := step now e r
    let tail := runTrace rest out.1
    (tail.1, out.2 ++ tail.2)

/-! ### Helper lemmas -/

theorem allocateLanes_phase (r : Room) : (allocateLanes r).phase = r.phase := rfl

theorem allocateLanes_hostId (r : Room) : (allocateLanes r).hostId = r.hostId := rfl

/-! ### C5 -/

/-- C5: a `pressBoost` start request in the race phase from a player whose
previous boost ended less than `BOOST_COOLDOWN_MS` ago is rejected: the room
state (hence the player's boost) is unchanged and a `boost` frame with
`accepted = false` and a non-negative remaining cooldown is emitted. -/
theorem C5_boost_cooldown_rejected
    (r : Room) (sender : ℕ) (a : Option ℤ) (now t : ℤ) (player : Player)
    (hphase : r.phase = .race)
    (hfind : r.players.find? (·.id = sender) = some player)
    (hlast : player.lastBoostEndMs = some t) (ht : t ≠ 0)
    (hcool : now - t < BOOST_COOLDOWN_MS) :
    pressBoostHandler sender true a now r =
      (r, [.boost sender true (jsOrOptZ a now) false
            (some (BOOST_COOLDOWN_MS - (now - t))) none]) ∧
    0 ≤ BOOST_COOLDOWN_MS - (now - t) := by
  have hca : (!truthyZ player.lastBoostEndMs ||
      decide (now - player.lastBoostEndMs.getD 0 ≥ BOOST_COOLDOWN_MS)) = false := by
    simp [hlast, truthyZ, ht]
    omega
  constructor
  · unfold pressBoostHandler
    rw [if_neg (by simp [hphase]), hfind]
    simp only [if_pos rfl, hca, Bool.false_and, if_neg Bool.false_ne_true]
    simp [hlast, truthyZ, ht]
  · omega

/-- Witness for C5 at a concrete room. -/
def wPlayer5 : Player :=
  { id := 1, username := "Alice", ready := false, lane := some 0, joinMs := 10,
    progress := some 0, finished := false, finishSecs := none,
    boostDown := false, boostSinceMs := none, lastBoostStartMs := some 400,
    lastBoostEndMs := some 460, currentSpeed := some 0,
    finishDecelStartMs := none, finishSpeed := none, fullyFinished := false }

def wRoom5 : Room :=
  { createRoom "dev" with phase := .race, hostId := some 1,
                          players := [wPlayer5], raceStartEpochMs := some 100,
                          lastUpdateMs := some 480, tickActive := true }

theorem C5_witness :
    wRoom5.phase = .race ∧
    wRoom5.players.find? (·.id = 1) = some wPlayer5 ∧
    wPlayer5.lastBoostEndMs = some 460 ∧
    ((460 : ℤ) ≠ 0) ∧ ((480 : ℤ) - 460 < BOOST_COOLDOWN_MS) ∧
    (pressBoostHandler 1 true (some 455) 480 wRoom5 =
      (wRoom5, [.boost 1 true 455 false (some (BOOST_COOLDOWN_MS - (480 - 460))) none]) ∧
     0 ≤ BOOST_COOLDOWN_MS - ((480 : ℤ) - 460)) := by
  refine ⟨rfl, by decide, rfl, by decide, by decide, ?_⟩
  exact C5_boost_cooldown_rejected wRoom5 1 (some 455) 480 460 wPlayer5 rfl
    (by decide) rfl (by decide) (by decide)

/-! ### C10 -/

/-- Erase the advisory `atClientMs` echo from a frame, keeping every
authoritative field (acceptance, cooldown, results, …). -/
def scrubMsg : Msg → Msg
  | .boost pid d _ acc cd rsn => .boost pid d 0 acc cd rsn
  | m => m

/-- Two events are equivalent when they differ at most in the client-supplied
`atClientMs` value of a `pressBoost` message. -/
inductive EventEqv : Event → Event → Prop
  | refl (e : Event) : EventEqv e e
  | pressBoost (s : ℕ) (d : Bool) (a1 a2 : Option ℤ) :
      EventEqv (.pressBoost s d a1) (.pressBoost s d a2)

theorem pressBoostHandler_atClientMs_indep (sender : ℕ) (down : Bool)
    (a1 a2 : Option ℤ) (now : ℤ) (r : Room) :
    (pressBoostHandler sender down a1 now r).1 =
      (pressBoostHandler sender down a2 now r).1 ∧
    (pressBoostHandler sender down a1 now r).2.map scrubMsg =
      (pressBoostHandler sender down a2 now r).2.map scrubMsg := by
  unfold pressBoostHandler
  split
  · exact ⟨rfl, rfl⟩
  · split
    · exact ⟨rfl, rfl⟩
    · cases down <;> simp only [Bool.false_eq_true, if_neg, if_pos, Bool.true_eq_false] <;>
        split_ifs <;> exact ⟨rfl, rfl⟩

theorem step_eventEqv (now : ℤ) (e1 e2 : Event) (h : EventEqv e1 e2) (r : Room) :
    (step now e1 r).1 = (step now e2 r).1 ∧
    (step now e1 r).2.map scrubMsg = (step now e2 r).2.map scrubMsg := by
  cases h with
  | refl e => exact ⟨rfl, rfl⟩
  | pressBoost s d a1 a2 => exact pressBoostHandler_atClientMs_indep s d a1 a2 now r

/-- C10: two executions identical except for the `atClientMs` values in
`pressBoost` messages reach the same room state — in particular the same
boost acceptance decisions and cooldown values (the emitted frames agree
after erasing the advisory echo) and the same `finishSeconds` and results. -/
theorem C10_client_timestamps_never_gate
    (es1 es2 : List (ℤ × Event))
    (h : List.Forall₂ (fun a b => a.1 = b.1 ∧ EventEqv a.2 b.2) es1 es2)
    (r : Room) :
    (runTrace es1 r).1 = (runTrace es2 r).1 ∧
    (runTrace es1 r).1.players.map (·.finishSecs) =
      (runTrace es2 r).1.players.map (·.finishSecs) ∧
    (runTrace es1 r).2.map scrubMsg = (runTrace es2 r).2.map scrubMsg := by
  induction h generalizing r with
  | nil => exact ⟨rfl, rfl, rfl⟩
  | cons hab htail ih =>
    rename_i a b l1 l2
    obtain ⟨t1, e1⟩ := a
    obtain ⟨t2, e2⟩ := b
    obtain ⟨ht, he⟩ := hab
    simp only at ht he
    subst ht
    have hs := step_eventEqv t1 e1 e2 he r
    simp only [runTrace]
    rw [← hs.1]
    have ihr := ih ((step t1 e1 r).1)
    refine ⟨ihr.1, ihr.2.1, ?_⟩
    simp only [List.map_append]
    rw [hs.2, ihr.2.2]

/-- Witness for C10: two one-message traces differing only in `atClientMs`. -/
theorem C10_witness :
    List.Forall₂ (fun a b => a.1 = b.1 ∧ EventEqv a.2 b.2)
      [((480 : ℤ), Event.pressBoost 1 true (some 42))]
      [((480 : ℤ), Event.pressBoost 1 true (some 7))] ∧
    ((runTrace [(480, .pressBoost 1 true (some 42))] wRoom5).1 =
      (runTrace [(480, .pressBoost 1 true (some 7))] wRoom5).1 ∧
    (runTrace [(480, .pressBoost 1 true (some 42))] wRoom5).1.players.map (·.finishSecs) =
      (runTrace [(480, .pressBoost 1 true (some 7))] wRoom5).1.players.map (·.finishSecs) ∧
    (runTrace [(480, .pressBoost 1 true (some 42))] wRoom5).2.map scrubMsg =
      (runTrace [(480, .pressBoost 1 true (some 7))] wRoom5).2.map scrubMsg) := by
  have h : List.Forall₂ (fun a b => a.1 = b.1 ∧ EventEqv a.2 b.2)
      [((480 : ℤ), Event.pressBoost 1 true (some 42))]
      [((480 : ℤ), Event.pressBoost 1 true (some 7))] := by
    refine List.Forall₂.cons ⟨rfl, ?_⟩ List.Forall₂.nil
    exact EventEqv.pressBoost 1 true (some 42) (some 7)
  exact ⟨h, C10_client_timestamps_never_gate _ _ h wRoom5⟩

/-! ### C9 -/

theorem playerRacePhase_spec (now : ℤ) (dt : ℚ) (rand : TickRand) (p : Player) :
    (playerRacePhase now dt rand p).1.currentSpeed =
      some (integrateSpeed (jsOrOptQ p.currentSpeed 0)
        (targetSpeed (boostActiveAt now p)) (ACCELERATION_RATE * dt)
        (DECELERATION_RATE * dt)) ∧
    (playerRacePhase now dt rand p).1.progress =
      p.progress.map (· + applyJitter (rand.pJit1 p.id)
        (integrateSpeed (jsOrOptQ p.currentSpeed 0)
          (targetSpeed (boostActiveAt now p)) (ACCELERATION_RATE * dt)
          (DECELERATION_RATE * dt)) 1 * dt) ∧
    (playerRacePhase now dt rand p).1.finished = p.finished ∧
    (playerRacePhase now dt rand p).1.fullyFinished = p.fullyFinished ∧
    (playerRacePhase now dt rand p).1.id = p.id := by
  unfold playerRacePhase
  by_cases hb : (p.boostDown && !boostActiveAt now p) = true <;>
    simp [hb]

theorem playerFinishCheck_skip (now raceStart : ℤ) (p : Player)
    (h : jsGe1 p.progress = false) : playerFinishCheck now raceStart p = p := by
  simp [playerFinishCheck, h]

theorem playerDecelPhase_skip (dt : ℚ) (rand : TickRand) (p : Player)
    (h : p.finished = false) : playerDecelPhase dt rand p = p := by
  simp [playerDecelPhase, h]

theorem botRacePhase_spec (dt : ℚ) (rand : TickRand) (b : Bot) :
    (botRacePhase dt rand b).currentSpeed =
      some (integrateSpeed (jsOrOptQ b.currentSpeed 0) (botTargetSpeed rand b)
        (BOT_ACCELERATION_RATE * dt) (BOT_DECELERATION_RATE * dt)) ∧
    (botRacePhase dt rand b).progress =
      b.progress.map (· + applyJitter (rand.bJit1 b.lane)
        (integrateSpeed (jsOrOptQ b.currentSpeed 0) (botTargetSpeed rand b)
          (BOT_ACCELERATION_RATE * dt) (BOT_DECELERATION_RATE * dt))
        (jsOrOptQ b.jitterScale 1) * dt) ∧
    (botRacePhase dt rand b).finished = b.finished ∧
    (botRacePhase dt rand b).fullyFinished = b.fullyFinished := by
  unfold botRacePhase
  simp

theorem botFinishCheck_skip (now raceStart : ℤ) (b : Bot)
    (h : jsGe1 b.progress = false) : botFinishCheck now raceStart b = b := by
  simp [botFinishCheck, h]

theorem botDecelPhase_skip (dt : ℚ) (rand : TickRand) (b : Bot)
    (h : b.finished = false) : botDecelPhase dt rand b = b := by
  simp [botDecelPhase, h]

/-- The source's `max delta (-maxDown)` step equals the claim's
`-(min (v - v*) maxDown)` form. -/
theorem integrateSpeed_claim_shape (v t up dn : ℚ) :
    integrateSpeed v t up dn =
      v + (if t - v > 0 then min (t - v) up else -(min (v - t) dn)) := by
  simp only [integrateSpeed]
  split_ifs with h
  · rfl
  · rcases le_total (v - t) dn with hc | hc
    · rw [min_eq_left hc, max_eq_left (by linarith)]
      ring
    · rw [min_eq_right hc, max_eq_right (by linarith)]

/-- C9: on every race tick, every not-yet-finished participant's stored speed
changes by exactly `min(v* − v, a_up·dt)` when `v* − v > 0` and by
`−min(v − v*, a_down·dt)` otherwise (with the human or bot
acceleration/deceleration rates respectively), and — as long as this does not
cross the finish line — progress increases by the multiplicatively jittered
resulting speed times `dt`. -/
theorem C9_motion_integration :
    (∀ (now raceStart : ℤ) (dt : ℚ) (rand : TickRand) (p : Player) (pr v vStar stp : ℚ),
      p.fullyFinished = false → p.finished = false → p.progress = some pr →
      v = jsOrOptQ p.currentSpeed 0 →
      vStar = targetSpeed (boostActiveAt now p) →
      stp = (if vStar - v > 0 then min (vStar - v) (ACCELERATION_RATE * dt)
             else -(min (v - vStar) (DECELERATION_RATE * dt))) →
      pr + applyJitter (rand.pJit1 p.id) (v + stp) 1 * dt < 1 →
      (tickPlayer now raceStart dt rand p).1.currentSpeed = some (v + stp) ∧
      (tickPlayer now raceStart dt rand p).1.progress =
        some (pr + applyJitter (rand.pJit1 p.id) (v + stp) 1 * dt)) ∧
    (∀ (now raceStart : ℤ) (dt : ℚ) (rand : TickRand) (b : Bot) (pr v vStar stp : ℚ),
      b.fullyFinished = false → b.finished = false → b.progress = some pr →
      v = jsOrOptQ b.currentSpeed 0 →
      vStar = botTargetSpeed rand b →
      stp = (if vStar - v > 0 then min (vStar - v) (BOT_ACCELERATION_RATE * dt)
             else -(min (v - vStar) (BOT_DECELERATION_RATE * dt))) →
      pr + applyJitter (rand.bJit1 b.lane) (v + stp) (jsOrOptQ b.jitterScale 1) * dt < 1 →
      (tickBot now raceStart dt rand b).currentSpeed = some (v + stp) ∧
      (tickBot now raceStart dt rand b).progress =
        some (pr + applyJitter (rand.bJit1 b.lane) (v + stp)
          (jsOrOptQ b.jitterScale 1) * dt)) := by
  constructor
  · intro now raceStart dt rand p pr v vStar stp hff hfin hpr hv hvs hstp hnc
    have hint : v + stp = integrateSpeed (jsOrOptQ p.currentSpeed 0)
        (targetSpeed (boostActiveAt now p)) (ACCELERATION_RATE * dt)
        (DECELERATION_RATE * dt) := by
      rw [integrateSpeed_claim_shape, hstp, hv, hvs]
    obtain ⟨hcs, hprog, hfin2, _, hid⟩ := playerRacePhase_spec now dt rand p
    have hprog2 : (playerRacePhase now dt rand p).1.progress =
        some (pr + applyJitter (rand.pJit1 p.id) (v + stp) 1 * dt) := by
      rw [hprog, hpr]
      simp only [Option.map_some']
      rw [← hint]
    have hge : jsGe1 (playerRacePhase now dt rand p).1.progress = false := by
      rw [hprog2]
      simp only [jsGe1, decide_eq_false_iff_not, not_le]
      exact hnc
    simp only [tickPlayer, hff, Bool.false_eq_true, if_false, hfin, ite_false]
    rw [playerFinishCheck_skip _ _ _ hge,
        playerDecelPhase_skip _ _ _ (hfin2.trans hfin)]
    exact ⟨hcs.trans (congrArg some hint.symm), hprog2⟩
  · intro now raceStart dt rand b pr v vStar stp hff hfin hpr hv hvs hstp hnc
    have hint : v + stp = integrateSpeed (jsOrOptQ b.currentSpeed 0)
        (botTargetSpeed rand b) (BOT_ACCELERATION_RATE * dt)
        (BOT_DECELERATION_RATE * dt) := by
      rw [integrateSpeed_claim_shape, hstp, hv, hvs]
    obtain ⟨hcs, hprog, hfin2, _⟩ := botRacePhase_spec dt rand b
    have hprog2 : (botRacePhase dt rand b).progress =
        some (pr + applyJitter (rand.bJit1 b.lane) (v + stp)
          (jsOrOptQ b.jitterScale 1) * dt) := by
      rw [hprog, hpr]
      simp only [Option.map_some']
      rw [← hint]
    have hge : jsGe1 (botRacePhase dt rand b).progress = false := by
      rw [hprog2]
      simp only [jsGe1, decide_eq_false_iff_not, not_le]
      exact hnc
    simp only [tickBot, hff, Bool.false_eq_true, if_false, hfin, ite_false]
    rw [botFinishCheck_skip _ _ _ hge,
        botDecelPhase_skip _ _ _ (hfin2.trans hfin)]
    exact ⟨hcs.trans (congrArg some hint.symm), hprog2⟩

/-- A concrete tick-randomness environment for witnesses. -/
def wRand : TickRand :=
  { pJit1 := fun _ => 1/2, pJit2 := fun _ => 1/2, bBoost1 := fun _ => 1/2,
    bBoost2 := fun _ => 1, bJit1 := fun _ => 1/2, bJit2 := fun _ => 1/2 }

/-- A mid-race player used by witnesses. -/
def wPlayer9 : Player :=
  { id := 1, username := "Alice", ready := false, lane := some 0, joinMs := 10,
    progress := some 0, finished := false, finishSecs := none,
    boostDown := false, boostSinceMs := none, lastBoostStartMs := none,
    lastBoostEndMs := none, currentSpeed := some 0,
    finishDecelStartMs := none, finishSpeed := none, fullyFinished := false }

/-- A mid-race bot used by witnesses. -/
def wBot9 : Bot :=
  { username := "Bot_1", lane := 2, progress := some 0, finished := false,
    finishSecs := none, currentSpeed := some 0, biasFactor := some 1,
    jitterScale := some 1, boostPreference := some 0,
    finishDecelStartMs := none, finishSpeed := none, fullyFinished := false }

/-- Witness for C9 at a concrete player and bot (idle targets, `dt = 10ms`). -/
theorem C9_witness :
    ((tickPlayer 1000 100 (1/100) wRand wPlayer9).1.currentSpeed = some (0 + 1/400) ∧
     (tickPlayer 1000 100 (1/100) wRand wPlayer9).1.progress =
       some (0 + applyJitter (wRand.pJit1 wPlayer9.id) (0 + 1/400) 1 * (1/100))) ∧
    ((tickBot 1000 100 (1/100) wRand wBot9).currentSpeed = some (0 + 1/400) ∧
     (tickBot 1000 100 (1/100) wRand wBot9).progress =
       some (0 + applyJitter (wRand.bJit1 wBot9.lane) (0 + 1/400)
         (jsOrOptQ wBot9.jitterScale 1) * (1/100))) := by
  constructor
  · exact C9_motion_integration.1 1000 100 (1/100) wRand wPlayer9 0 0 (9/125) (1/400)
      rfl rfl rfl
      (by norm_num [wPlayer9, jsOrOptQ, jsOrQ])
      (by norm_num [targetSpeed, boostActiveAt, wPlayer9, baseSpeed,
        MAX_EXECUTION_TIME, IDLE_SPEED_FACTOR, BOOST_FACTOR, truthyZ])
      (by norm_num [ACCELERATION_RATE, DECELERATION_RATE, min_def])
      (by norm_num [applyJitter, wRand, wPlayer9])
  · exact C9_motion_integration.2 1000 100 (1/100) wRand wBot9 0 0 (9/125) (1/400)
      rfl rfl rfl
      (by norm_num [wBot9, jsOrOptQ, jsOrQ])
      (by norm_num [botTargetSpeed, botBoostDecision, wBot9, wRand,
        BOT_BOOST_PROB_PER_TICK, BOT_BOOST_ENABLE_PROB, BOT_IDLE_SPEED_FACTOR,
        IDLE_SPEED_FACTOR, baseSpeed, MAX_EXECUTION_TIME, jsOrOptQ, jsOrQ,
        BOOST_FACTOR])
      (by norm_num [BOT_ACCELERATION_RATE, BOT_DECELERATION_RATE, min_def])
      (by norm_num [applyJitter, wRand, wBot9, jsOrOptQ, jsOrQ])

/-! ### C4 -/

theorem playerRacePhase_boost_expire (now : ℤ) (dt : ℚ) (rand : TickRand)
    (p : Player) (hb : (p.boostDown && !boostActiveAt now p) = true) :
    (playerRacePhase now dt rand p).1.boostDown = false ∧
    (playerRacePhase now dt rand p).1.lastBoostEndMs = some now ∧
    (playerRacePhase now dt rand p).2 =
      [.boost p.id false now true none (some "auto-expire")] := by
  unfold playerRacePhase
  simp [hb]

theorem playerFinishCheck_boost_fields (now raceStart : ℤ) (p : Player) :
    (playerFinishCheck now raceStart p).boostDown = p.boostDown ∧
    (playerFinishCheck now raceStart p).lastBoostEndMs = p.lastBoostEndMs := by
  unfold playerFinishCheck
  split_ifs <;> exact ⟨rfl, rfl⟩

theorem playerDecelPhase_boost_fields (dt : ℚ) (rand : TickRand) (p : Player) :
    (playerDecelPhase dt rand p).boostDown = p.boostDown ∧
    (playerDecelPhase dt rand p).lastBoostEndMs = p.lastBoostEndMs := by
  simp only [playerDecelPhase]
  split_ifs <;> exact ⟨rfl, rfl⟩

/-- C4 (amended): on any race tick at which an unfinished player holds a boost
whose age exceeds `BOOST_MAX_DURATION_MS`, the boost is forcibly ended —
`boostDown` cleared, `lastBoostEndMs := now`, an `auto-expire` frame emitted —
and the boost is already inactive for that tick's target speed, so an accepted
boost never influences the target speed beyond `BOOST_MAX_DURATION_MS`. -/
theorem C4_boost_auto_expiry (now raceStart : ℤ) (dt : ℚ) (rand : TickRand)
    (p : Player) (t0 : ℤ)
    (hff : p.fullyFinished = false) (hfin : p.finished = false)
    (hbd : p.boostDown = true) (hbs : p.boostSinceMs = some t0)
    (hexp : now - t0 > BOOST_MAX_DURATION_MS) :
    (tickPlayer now raceStart dt rand p).1.boostDown = false ∧
    (tickPlayer now raceStart dt rand p).1.lastBoostEndMs = some now ∧
    Msg.boost p.id false now true none (some "auto-expire") ∈
      (tickPlayer now raceStart dt rand p).2 ∧
    targetSpeed (boostActiveAt now p) = targetSpeed false := by
  have hba : boostActiveAt now p = false := by
    simp only [boostActiveAt, hbs, hbd, truthyZ, Bool.true_and]
    simp only [Option.getD_some]
    rw [Bool.and_eq_false_iff]
    right
    simp only [decide_eq_false_iff_not, not_le]
    exact hexp
  have hb : (p.boostDown && !boostActiveAt now p) = true := by
    rw [hbd, hba]
    rfl
  obtain ⟨h1, h2, h3⟩ := playerRacePhase_boost_expire now dt rand p hb
  simp only [tickPlayer, hff, Bool.false_eq_true, if_false, hfin, ite_false]
  obtain ⟨hf1, hf2⟩ :=
    playerFinishCheck_boost_fields now raceStart (playerRacePhase now dt rand p).1
  obtain ⟨hd1, hd2⟩ := playerDecelPhase_boost_fields dt rand
    (playerFinishCheck now raceStart (playerRacePhase now dt rand p).1)
  refine ⟨hd1.trans (hf1.trans h1), hd2.trans (hf2.trans h2), ?_, by rw [hba]⟩
  rw [h3]
  exact List.mem_singleton.mpr rfl

/-- Witness for C4 at a concrete expired boost. -/
def wPlayer4 : Player :=
  { wPlayer9 with boostDown := true, boostSinceMs := some 500,
                  lastBoostStartMs := some 500 }

theorem C4_witness :
    (tickPlayer 1000 100 (1/100) wRand wPlayer4).1.boostDown = false ∧
    (tickPlayer 1000 100 (1/100) wRand wPlayer4).1.lastBoostEndMs = some 1000 ∧
    Msg.boost wPlayer4.id false 1000 true none (some "auto-expire") ∈
      (tickPlayer 1000 100 (1/100) wRand wPlayer4).2 ∧
    targetSpeed (boostActiveAt 1000 wPlayer4) = targetSpeed false :=
  C4_boost_auto_expiry 1000 100 (1/100) wRand wPlayer4 500 rfl rfl rfl rfl
    (by decide)

/-- A player who crossed the line with a still-active boost: the auto-expiry
block is skipped once `finished` is set. -/
def cPlayer4 : Player :=
  { id := 1, username := "Alice", ready := false, lane := some 0, joinMs := 10,
    progress := some 1, finished := true, finishSecs := some (4/5),
    boostDown := true, boostSinceMs := some 100, lastBoostStartMs := some 100,
    lastBoostEndMs := none, currentSpeed := some (1/10),
    finishDecelStartMs := some 900, finishSpeed := some (1/10),
    fullyFinished := false }

def cRoom4 : Room :=
  { createRoom "dev" with phase := .race, hostId := some 1,
                          players := [cPlayer4], raceStartEpochMs := some 100,
                          lastUpdateMs := some 990, tickActive := true }

/-- Counterexample to C4 as stated: at the tick at time 1000 the boost of
`cPlayer4` is 900 ms old (well past `BOOST_MAX_DURATION_MS = 300`), yet after
the tick `boostDown` is still `true` and no `lastBoostEndMs` was recorded,
because the player has already crossed the finish line and the auto-expiry
check only runs for unfinished players. -/
theorem C4_counterexample :
    cPlayer4.boostDown = true ∧
    cPlayer4.boostSinceMs = some 100 ∧
    ((1000 : ℤ) - 100 > BOOST_MAX_DURATION_MS) ∧
    (updateRace 1000 wRand cRoom4).1.players.map (·.boostDown) = [true] ∧
    (updateRace 1000 wRand cRoom4).1.players.map (·.lastBoostEndMs) = [none] := by
  refine ⟨rfl, rfl, by decide, ?_, ?_⟩ <;>
    norm_num [updateRace, cRoom4, cPlayer4, createRoom, tickPlayer,
      playerFinishCheck, playerDecelPhase, catMsgs, jsOrOpt, jsMax0, jsSub,
      jsGe1, jsLe0, truthyZ, FINISH_DECELERATION_DURATION_MS, applyJitter,
      wRand, endRace, compileResults, withDeltas, resultKey]

/-! ### C6 -/

theorem length_filter_eq_iff_all {α : Type} (p : α → Bool) (l : List α) :
    ((l.filter p).length = l.length) ↔ l.all p := by
  induction l with
  | nil => simp
  | cons a l ih =>
    by_cases h : p a
    · simp [h, List.filter_cons, ih]
    · rw [List.filter_cons, if_neg (by simp [h])]
      simp only [List.length_cons, List.all_cons]
      constructor
      · intro hl
        have h2 := List.length_filter_le p l
        omega
      · intro hf
        rw [Bool.and_eq_true] at hf
        exact absurd hf.1 h

/-- A results-phase room whose single player is the host. -/
def cRoom6 : Room :=
  { createRoom "dev" with phase := .results, hostId := some 1,
                          players := [wPlayer9] }

/-- Counterexample to C6 as stated: the sender is the host and the participant
count is exactly 1, yet `startGame` is a no-op because the room is in the
`results` phase — the claim omits the `phase = lobby` requirement. -/
theorem C6_counterexample :
    cRoom6.hostId = some 1 ∧ cRoom6.players.length = 1 ∧
    cRoom6.phase = .results ∧
    startGameHandler 1 480 cRoom6 = (cRoom6, []) ∧
    (startGameHandler 1 480 cRoom6).1.phase ≠ .countdown := by
  refine ⟨rfl, rfl, rfl, ?_, ?_⟩ <;> decide

/-- C6 (amended): `startGame` from a room member succeeds — broadcasting the
countdown frame and entering the countdown phase — if and only if the sender
is the host, the room is in the lobby phase, and either exactly one
participant is present or all participants are ready; in every other case the
handler changes nothing and emits nothing. -/
theorem C6_startGame_gate (sender : ℕ) (now : ℤ) (r : Room)
    (hmem : r.players.any (·.id = sender) = true) :
    ((∃ e, Msg.countdown COUNTDOWN_SECONDS e ∈ (startGameHandler sender now r).2) ↔
      (r.hostId = some sender ∧ r.phase = .lobby ∧
        (r.players.length = 1 ∨ r.players.all (·.ready) = true))) ∧
    ((r.hostId = some sender ∧ r.phase = .lobby ∧
        (r.players.length = 1 ∨ r.players.all (·.ready) = true)) →
      (startGameHandler sender now r).1.phase = .countdown) ∧
    (¬(r.hostId = some sender ∧ r.phase = .lobby ∧
        (r.players.length = 1 ∨ r.players.all (·.ready) = true)) →
      startGameHandler sender now r = (r, [])) := by
  have hlen : 1 ≤ r.players.length := by
    obtain ⟨x, hx, _⟩ := List.any_eq_true.mp hmem
    exact List.length_pos.mpr (List.ne_nil_of_mem hx)
  have hready : ((r.players.filter (·.ready)).length = r.players.length) ↔
      r.players.all (·.ready) = true := length_filter_eq_iff_all _ _
  by_cases hh : r.hostId = some sender
  · by_cases hc : r.players.length ≥ 1 ∧
        (r.players.length = 1 ∨ (r.players.filter (·.ready)).length = r.players.length) ∧
        r.phase = .lobby
    · have hout : startGameHandler sender now r = startCountdown now r := by
        unfold startGameHandler
        rw [if_neg (by simp [hh]), if_pos hc]
      rw [hout]
      unfold startCountdown
      refine ⟨?_, ?_, ?_⟩
      · simp only [List.mem_singleton]
        constructor
        · intro _
          exact ⟨hh, hc.2.2, hc.2.1.imp id hready.mp⟩
        · intro _
          exact ⟨now + COUNTDOWN_SECONDS * 1000, rfl⟩
      · intro _
        rfl
      · intro hcon
        exact absurd ⟨hh, hc.2.2, hc.2.1.imp id hready.mp⟩ hcon
    · have hout : startGameHandler sender now r = (r, []) := by
        unfold startGameHandler
        rw [if_neg (by simp [hh]), if_neg hc]
      rw [hout]
      refine ⟨?_, ?_, ?_⟩
      · simp only [List.not_mem_nil, exists_const, false_iff]
        intro hcl
        exact hc ⟨hlen, hcl.2.2.imp id hready.mpr, hcl.2.1⟩
      · intro hcl
        exact absurd ⟨hlen, hcl.2.2.imp id hready.mpr, hcl.2.1⟩ hc
      · intro _
        rfl
  · have hout : startGameHandler sender now r = (r, []) := by
      unfold startGameHandler
      rw [if_pos hh]
    rw [hout]
    refine ⟨?_, ?_, ?_⟩
    · simp only [List.not_mem_nil, exists_const, false_iff]
      intro hcl
      exact hh hcl.1
    · intro hcl
      exact absurd hcl.1 hh
    · intro _
      rfl

/-- A lobby room whose single player is the host. -/
def wRoom6 : Room :=
  { createRoom "dev" with phase := .lobby, hostId := some 1,
                          players := [wPlayer9] }

/-- Witness for C6 at a concrete single-player lobby. -/
theorem C6_witness :
    wRoom6.players.any (·.id = 1) = true ∧
    ((∃ e, Msg.countdown COUNTDOWN_SECONDS e ∈ (startGameHandler 1 480 wRoom6).2) ↔
      (wRoom6.hostId = some 1 ∧ wRoom6.phase = .lobby ∧
        (wRoom6.players.length = 1 ∨ wRoom6.players.all (·.ready) = true))) ∧
    ((wRoom6.hostId = some 1 ∧ wRoom6.phase = .lobby ∧
        (wRoom6.players.length = 1 ∨ wRoom6.players.all (·.ready) = true)) →
      (startGameHandler 1 480 wRoom6).1.phase = .countdown) ∧
    (¬(wRoom6.hostId = some 1 ∧ wRoom6.phase = .lobby ∧
        (wRoom6.players.length = 1 ∨ wRoom6.players.all (·.ready) = true)) →
      startGameHandler 1 480 wRoom6 = (wRoom6, [])) := by
  have h : wRoom6.players.any (·.id = 1) = true := by decide
  exact ⟨h, C6_startGame_gate 1 480 wRoom6 h⟩

/-! ### C8 -/

/-- C8: when the host disconnects, the new `hostId` is the first remaining
player in map (= insertion = join) order — with the players sorted by join
timestamp this is a player with the earliest remaining join timestamp — and
`null` when nobody remains. -/
theorem C8_host_migration (r : Room) (c : ℕ) (player : Player)
    (hfind : r.players.find? (·.id = c) = some player)
    (hhost : r.hostId = some player.id)
    (hsorted : r.players.Pairwise (fun a b => a.joinMs ≤ b.joinMs)) :
    (disconnectHandler c r).1.hostId =
      ((r.players.filter (fun q => q.id ≠ c)).head?.map (·.id)) ∧
    (∀ q, (r.players.filter (fun q => q.id ≠ c)).head? = some q →
      ∀ x ∈ r.players.filter (fun q => q.id ≠ c), q.joinMs ≤ x.joinMs) ∧
    ((r.players.filter (fun q => q.id ≠ c)) = [] →
      (disconnectHandler c r).1.hostId = none) := by
  have h1 : (disconnectHandler c r).1.hostId =
      ((r.players.filter (fun q => q.id ≠ c)).head?.map (·.id)) := by
    unfold disconnectHandler
    rw [hfind]
    simp only [hhost, if_pos rfl, allocateLanes_hostId]
    split_ifs <;> rfl
  refine ⟨h1, ?_, ?_⟩
  · intro q hq x hx
    have hpw : (r.players.filter (fun q => q.id ≠ c)).Pairwise
        (fun a b => a.joinMs ≤ b.joinMs) :=
      hsorted.sublist (List.filter_sublist r.players)
    cases hrem : r.players.filter (fun q => q.id ≠ c) with
    | nil =>
      rw [hrem] at hq
      exact absurd hq (by simp)
    | cons a t =>
      rw [hrem] at hq hx hpw
      have ha : a = q := by
        simpa using hq
      subst ha
      rw [List.pairwise_cons] at hpw
      rcases List.mem_cons.mp hx with hxa | hxt
      · rw [hxa]
      · exact hpw.1 x hxt
  · intro hnil
    rw [h1, hnil]
    rfl

def wPlayerB : Player := { wPlayer9 with id := 2, username := "Bob", joinMs := 20 }

def wRoom8 : Room :=
  { createRoom "dev" with phase := .lobby, hostId := some 1,
                          players := [wPlayer9, wPlayerB] }

/-- Witness for C8: the host (joined first) disconnects, the second joiner
becomes host. -/
theorem C8_witness :
    wRoom8.players.find? (·.id = 1) = some wPlayer9 ∧
    wRoom8.hostId = some wPlayer9.id ∧
    wRoom8.players.Pairwise (fun a b => a.joinMs ≤ b.joinMs) ∧
    ((disconnectHandler 1 wRoom8).1.hostId =
      ((wRoom8.players.filter (fun q => q.id ≠ 1)).head?.map (·.id)) ∧
     (∀ q, (wRoom8.players.filter (fun q => q.id ≠ 1)).head? = some q →
       ∀ x ∈ wRoom8.players.filter (fun q => q.id ≠ 1), q.joinMs ≤ x.joinMs) ∧
     ((wRoom8.players.filter (fun q => q.id ≠ 1)) = [] →
       (disconnectHandler 1 wRoom8).1.hostId = none)) := by
  refine ⟨by decide, rfl, by decide, ?_⟩
  exact C8_host_migration wRoom8 1 wPlayer9 (by decide) rfl (by decide)

/-! ### C3 -/

/-- Nine `hello` joins into one fresh room (nothing in the server enforces
`MAX_PLAYERS`). -/
def helloTrace9 : List (ℤ × Event) :=
  (List.range 9).map fun (i : ℕ) => ((10 * (i + 1) : ℤ), Event.hello (i + 1) "P")

/-- C3 failing-input evaluation: after nine joins the room holds 9 occupants
(9 humans, 0 bots) instead of `TOTAL_LANES = 8`, and the ninth player's lane
is undefined — the lane invariant is violated in a reachable state. -/
theorem C3_failing_eval :
    TOTAL_LANES = 8 ∧
    (runTrace helloTrace9 (createRoom "dev")).1.players.length = 9 ∧
    (runTrace helloTrace9 (createRoom "dev")).1.bots.length = 0 ∧
    ((runTrace helloTrace9 (createRoom "dev")).1.players.map (·.lane)).getLast?
      = some none := by
  refine ⟨rfl, ?_, ?_, ?_⟩ <;> decide

/-! ### C1 -/

theorem tickPlayer_msgs_shape (now raceStart : ℤ) (dt : ℚ) (rand : TickRand)
    (p : Player) :
    (tickPlayer now raceStart dt rand p).2 = [] ∨
    (tickPlayer now raceStart dt rand p).2 =
      [.boost p.id false now true none (some "auto-expire")] := by
  unfold tickPlayer
  split_ifs with h1 h2
  · left
    rfl
  · left
    rfl
  · by_cases hb : (p.boostDown && !boostActiveAt now p) = true
    · right
      simp [playerRacePhase, hb]
    · left
      simp [playerRacePhase, hb]

/-- Membership in concatenated per-participant message lists. -/
theorem mem_catMsgs {m : Msg} {ls : List (List Msg)} :
    m ∈ catMsgs ls ↔ ∃ l ∈ ls, m ∈ l := by
  induction ls with
  | nil => simp [catMsgs]
  | cons a t ih =>
    simp only [catMsgs, List.foldr_cons, List.mem_append] at ih ⊢
    rw [ih]
    simp

/-- The per-player tick messages contain no `raceEnd` frame. -/
theorem raceEnd_not_mem_tick_msgs (now raceStart : ℤ) (dt : ℚ) (rand : TickRand)
    (ps : List Player) (w : Option RId) (res : List Entry) :
    Msg.raceEnd w res ∉
      catMsgs ((ps.map (tickPlayer now raceStart dt rand)).map Prod.snd) := by
  intro hmem
  rw [mem_catMsgs] at hmem
  obtain ⟨l, hl, hml⟩ := hmem
  rw [List.mem_map] at hl
  obtain ⟨pout, hpo, hple⟩ := hl
  rw [List.mem_map] at hpo
  obtain ⟨p, _, hpe⟩ := hpo
  rcases tickPlayer_msgs_shape now raceStart dt rand p with hsh | hsh
  · rw [← hpe, hsh] at hple
    rw [← hple] at hml
    exact absurd hml (List.not_mem_nil _)
  · rw [← hpe, hsh] at hple
    rw [← hple] at hml
    rcases List.mem_singleton.mp hml

theorem all_fullyFinished_map_unready (l : List Player) :
    ((l.map fun p => { p with ready := false }).all (·.fullyFinished)) =
      l.all (·.fullyFinished) := by
  induction l with
  | nil => rfl
  | cons a t ih => simp [ih]

/-- C1: on a race-phase tick, `raceEnd` is broadcast and the phase moves to
`results` in that tick if and only if, after the tick's motion updates, every
human player and every bot is `fullyFinished`. -/
theorem C1_raceEnd_iff_all_fullyFinished (now : ℤ) (rand : TickRand) (r : Room)
    (h : r.phase = .race) :
    ((∃ w res, Msg.raceEnd w res ∈ (updateRace now rand r).2) ↔
      ((updateRace now rand r).1.players.all (·.fullyFinished) = true ∧
       (updateRace now rand r).1.bots.all (·.fullyFinished) = true)) ∧
    ((updateRace now rand r).1.phase = .results ↔
      ((updateRace now rand r).1.players.all (·.fullyFinished) = true ∧
       (updateRace now rand r).1.bots.all (·.fullyFinished) = true)) := by
  have hg : ¬(r.phase ≠ Phase.race) := by
    rw [h]
    exact fun hc => hc rfl
  unfold updateRace
  rw [if_neg hg]
  simp only []
  set dtMs : ℤ := if truthyZ r.lastUpdateMs then now - r.lastUpdateMs.getD 0 else 0 with hdt
  set players' : List Player :=
    (r.players.map (tickPlayer now (r.raceStartEpochMs.getD 0) ((dtMs : ℚ) / 1000) rand)).map
      Prod.fst with hpl
  set bots' : List Bot :=
    r.bots.map (tickBot now (r.raceStartEpochMs.getD 0) ((dtMs : ℚ) / 1000) rand) with hbl
  by_cases hall : (players'.all (·.fullyFinished) && bots'.all (·.fullyFinished)) = true
  · rw [Bool.and_eq_true] at hall
    simp only [hall.1, hall.2, Bool.and_self, if_pos]
    unfold endRace
    constructor
    · constructor
      · intro _
        rw [all_fullyFinished_map_unready]
        exact hall
      · intro _
        exact ⟨_, _, List.mem_append_right _ (List.mem_singleton.mpr rfl)⟩
    · constructor
      · intro _
        rw [all_fullyFinished_map_unready]
        exact hall
      · intro _
        rfl
  · simp only [hall, if_neg, Bool.false_eq_true, not_false_eq_true]
    rw [Bool.and_eq_true] at hall
    constructor
    · constructor
      · intro ⟨w, res, hmem⟩
        exact absurd hmem (raceEnd_not_mem_tick_msgs _ _ _ _ _ _ _)
      · intro hc
        exact absurd hc (by tauto)
    · constructor
      · intro hc
        have hc2 : r.phase = Phase.results := hc
        rw [h] at hc2
        exact absurd hc2 (by decide)
      · intro hc
        exact absurd hc (by tauto)

/-- Witness for C1 at a concrete race-phase room. -/
theorem C1_witness :
    wRoom5.phase = .race ∧
    (((∃ w res, Msg.raceEnd w res ∈ (updateRace 490 wRand wRoom5).2) ↔
      ((updateRace 490 wRand wRoom5).1.players.all (·.fullyFinished) = true ∧
       (updateRace 490 wRand wRoom5).1.bots.all (·.fullyFinished) = true)) ∧
     ((updateRace 490 wRand wRoom5).1.phase = .results ↔
      ((updateRace 490 wRand wRoom5).1.players.all (·.fullyFinished) = true ∧
       (updateRace 490 wRand wRoom5).1.bots.all (·.fullyFinished) = true))) :=
  ⟨rfl, C1_raceEnd_iff_all_fullyFinished 490 wRand wRoom5 rfl⟩

/-! ### C2 -/

theorem round3_thousandths (k k0 : ℤ) :
    round3 ((k : ℚ)/1000 - (k0 : ℚ)/1000) = (k : ℚ)/1000 - (k0 : ℚ)/1000 := by
  unfold round3
  have h : ((k : ℚ)/1000 - (k0 : ℚ)/1000) * 1000 = ((k - k0 : ℤ) : ℚ) := by
    push_cast
    ring
  rw [h, round_intCast]
  push_cast
  ring

theorem withDeltas_eq_map (l : List Entry) :
    withDeltas l = l.map fun e =>
      { e with deltaSecs := (l.head?.bind (·.finishSecs)).map fun w => round3 (e.finishSecs.getD 0 - w) } := rfl

/-- Sortedness and delta correctness of the compiled results, provided every
entry carries a finish time that is a whole number of milliseconds (as every
recorded `finishSeconds` is). -/
theorem compileResults_props (ps : List Player) (bs : List Bot)
    (hms : ∀ e ∈ compileResults ps bs, ∃ k : ℤ, e.finishSecs = some ((k : ℚ)/1000)) :
    List.Pairwise entryLe (compileResults ps bs) ∧
    ∀ q, (compileResults ps bs).head? = some q →
      q.deltaSecs = some 0 ∧
      ∀ e ∈ compileResults ps bs,
        e.deltaSecs = some (resultKey e - resultKey q) ∧
        0 ≤ resultKey e - resultKey q := by
  have hsorted : List.Pairwise entryLe
      (List.insertionSort entryLe (resultEntries ps bs)) :=
    List.sorted_insertionSort entryLe (resultEntries ps bs)
  have hres : compileResults ps bs =
      withDeltas (List.insertionSort entryLe (resultEntries ps bs)) := rfl
  refine ⟨?_, ?_⟩
  · rw [hres, withDeltas_eq_map]
    exact hsorted.map _ (fun a b hab => hab)
  · intro q hq
    rcases hsort : List.insertionSort entryLe (resultEntries ps bs) with _ | ⟨q0, t⟩
    · rw [hres, hsort] at hq
      exact absurd hq (by simp [withDeltas])
    · rw [hsort] at hsorted
      rw [List.pairwise_cons] at hsorted
      rw [hres, hsort, withDeltas_eq_map] at hq hms ⊢
      simp only [List.map_cons, List.head?_cons, Option.some_bind,
        Option.some.injEq] at hq
      have hqmem : q ∈ (q0 :: t).map fun e =>
          { e with deltaSecs := (q0.finishSecs).map fun w => round3 (e.finishSecs.getD 0 - w) } := by
        rw [← hq]
        exact List.mem_map_of_mem _ (List.mem_cons_self _ _)
      obtain ⟨k0, hk0⟩ := hms q (by simpa using hqmem)
      have hq0fs : q0.finishSecs = some ((k0 : ℚ)/1000) := by
        rw [← hq] at hk0
        exact hk0
      have hdq : q.deltaSecs = some 0 := by
        rw [← hq]
        show ((q0.finishSecs).map fun w => round3 (q0.finishSecs.getD 0 - w)) = some 0
        rw [hq0fs]
        simp only [Option.map_some', Option.getD_some]
        rw [round3_thousandths k0 k0]
        norm_num
      have hkq : resultKey q = (k0 : ℚ)/1000 := by
        show q.finishSecs.getD 0 = _
        rw [← hq]
        show q0.finishSecs.getD 0 = _
        rw [hq0fs]
        rfl
      refine ⟨hdq, ?_⟩
      intro e he
      simp only [List.head?_cons, Option.some_bind] at he
      rw [List.mem_map] at he
      obtain ⟨e0, he0, hfe⟩ := he
      obtain ⟨k, hk⟩ := hms e (by
        simp only [List.head?_cons, Option.some_bind]
        rw [← hfe]
        exact List.mem_map_of_mem _ he0)
      have he0fs : e0.finishSecs = some ((k : ℚ)/1000) := by
        rw [← hfe] at hk
        exact hk
      have hke : resultKey e = (k : ℚ)/1000 := by
        show e.finishSecs.getD 0 = _
        rw [← hfe]
        show e0.finishSecs.getD 0 = _
        rw [he0fs]
        rfl
      have hdel : e.deltaSecs = some (round3 ((k : ℚ)/1000 - (k0 : ℚ)/1000)) := by
        rw [← hfe]
        show ((q0.finishSecs).map fun w => round3 (e0.finishSecs.getD 0 - w)) = _
        rw [hq0fs, he0fs]
        simp only [Option.map_some', Option.getD_some]
      have hde : e.deltaSecs = some (resultKey e - resultKey q) := by
        rw [hdel, round3_thousandths k k0, hke, hkq]
      refine ⟨hde, ?_⟩
      have hle : resultKey q ≤ resultKey e := by
        have hrq : resultKey q = resultKey q0 := by
          rw [hkq]
          show _ = q0.finishSecs.getD 0
          rw [hq0fs]
          rfl
        have hre : resultKey e = resultKey e0 := by
          rw [hke]
          show _ = e0.finishSecs.getD 0
          rw [he0fs]
          rfl
        rw [hrq, hre]
        rcases List.mem_cons.mp he0 with h0 | h0
        · rw [h0]
        · exact hsorted.1 e0 h0
      linarith

/-- C2: whenever `raceEnd` is emitted from a race tick, its results list is
sorted ascending by `finishSeconds` (the comparator key `resultKey`), the
first entry's `deltaSeconds` is exactly 0, and every entry's `deltaSeconds`
equals its `finishSeconds` minus the winner's, hence is nonnegative —
provided every finish time is a whole number of milliseconds, which is how
the server records them. -/
theorem C2_raceEnd_results_sorted (now : ℤ) (rand : TickRand) (r : Room)
    (h : r.phase = .race) (w : Option RId) (res : List Entry)
    (hmem : Msg.raceEnd w res ∈ (updateRace now rand r).2)
    (hms : ∀ e ∈ res, ∃ k : ℤ, e.finishSecs = some ((k : ℚ)/1000)) :
    List.Pairwise entryLe res ∧
    ∀ q, res.head? = some q →
      q.deltaSecs = some 0 ∧
      ∀ e ∈ res,
        e.deltaSecs = some (resultKey e - resultKey q) ∧
        0 ≤ resultKey e - resultKey q := by
  have hg : ¬(r.phase ≠ Phase.race) := by
    rw [h]
    exact fun hc => hc rfl
  unfold updateRace at hmem
  rw [if_neg hg] at hmem
  simp only [] at hmem
  by_cases hall : ((((r.players.map (tickPlayer now (r.raceStartEpochMs.getD 0)
      ((((if truthyZ r.lastUpdateMs then now - r.lastUpdateMs.getD 0 else 0) : ℤ) : ℚ) / 1000)
      rand)).map Prod.fst).all (·.fullyFinished)) &&
      ((r.bots.map (tickBot now (r.raceStartEpochMs.getD 0)
      ((((if truthyZ r.lastUpdateMs then now - r.lastUpdateMs.getD 0 else 0) : ℤ) : ℚ) / 1000)
      rand)).all (·.fullyFinished))) = true
  · rw [if_pos hall] at hmem
    rw [List.mem_append] at hmem
    rcases hmem with hmem | hmem
    · exact absurd hmem (raceEnd_not_mem_tick_msgs _ _ _ _ _ _ _)
    · unfold endRace at hmem
      rw [List.mem_singleton] at hmem
      injection hmem with h1 h2
      subst h2
      exact compileResults_props _ _ hms
  · rw [if_neg hall] at hmem
    exact absurd hmem (raceEnd_not_mem_tick_msgs _ _ _ _ _ _ _)

/-- A fully finished player with an integral finish time. -/
def wPlayerF1 : Player :=
  { wPlayer9 with progress := some 1, finished := true, finishSecs := some 2,
                  currentSpeed := some 0, finishDecelStartMs := some 800,
                  finishSpeed := some 0, fullyFinished := true }

def wPlayerF2 : Player :=
  { wPlayerF1 with id := 2, username := "Bob", joinMs := 20, finishSecs := some 3 }

/-- A race-phase room whose tick will emit `raceEnd` (everyone fully
finished; players deliberately listed out of finish order). -/
def wRoom2 : Room :=
  { createRoom "dev" with phase := .race, hostId := some 1,
                          players := [wPlayerF2, wPlayerF1],
                          raceStartEpochMs := some 100,
                          lastUpdateMs := some 990, tickActive := true }

def wRes2 : List Entry := compileResults [wPlayerF2, wPlayerF1] []

def wWinner2 : Option RId := wRes2.head?.map (·.rid)

/-- Witness for C2 at a concrete completed race. -/
theorem C2_witness :
    wRoom2.phase = .race ∧
    Msg.raceEnd wWinner2 wRes2 ∈ (updateRace 1000 wRand wRoom2).2 ∧
    (∀ e ∈ wRes2, ∃ k : ℤ, e.finishSecs = some ((k : ℚ)/1000)) ∧
    (List.Pairwise entryLe wRes2 ∧
     ∀ q, wRes2.head? = some q →
       q.deltaSecs = some 0 ∧
       ∀ e ∈ wRes2,
         e.deltaSecs = some (resultKey e - resultKey q) ∧
         0 ≤ resultKey e - resultKey q) := by
  have hm : (updateRace 1000 wRand wRoom2).2 = [Msg.raceEnd wWinner2 wRes2] := rfl
  have hmem : Msg.raceEnd wWinner2 wRes2 ∈ (updateRace 1000 wRand wRoom2).2 := by
    rw [hm]
    exact List.mem_singleton.mpr rfl
  have hfs : wRes2.map (·.finishSecs) = [some 2, some 3] := rfl
  have hms : ∀ e ∈ wRes2, ∃ k : ℤ, e.finishSecs = some ((k : ℚ)/1000) := by
    intro e he
    have hmm : e.finishSecs ∈ wRes2.map (·.finishSecs) := List.mem_map_of_mem _ he
    rw [hfs] at hmm
    simp only [List.mem_cons, List.not_mem_nil, or_false] at hmm
    rcases hmm with h | h
    · exact ⟨2000, by rw [h]; norm_num⟩
    · exact ⟨3000, by rw [h]; norm_num⟩
  exact ⟨rfl, hmem, hms,
    C2_raceEnd_results_sorted 1000 wRand wRoom2 rfl wWinner2 wRes2 hmem hms⟩

/-! ### C7 -/

theorem helloHandler_phase (cid : ℕ) (u : String) (now : ℤ) (r : Room) :
    (helloHandler cid u now r).1.phase = r.phase := by
  simp only [helloHandler]
  split_ifs <;> rfl

theorem setReadyHandler_phase (s : ℕ) (rd : Bool) (r : Room) :
    (setReadyHandler s rd r).1.phase = r.phase := by
  simp only [setReadyHandler]
  cases r.players.find? (·.id = s) <;> split_ifs <;> rfl

theorem pressBoostHandler_phase (s : ℕ) (d : Bool) (a : Option ℤ) (now : ℤ)
    (r : Room) : (pressBoostHandler s d a now r).1.phase = r.phase := by
  simp only [pressBoostHandler]
  split
  · rfl
  · split
    · rfl
    · split_ifs <;> rfl

theorem renameHandler_phase (s : ℕ) (u : String) (r : Room) :
    (renameHandler s u r).1.phase = r.phase := by
  simp only [renameHandler]
  split_ifs
  · rfl
  · rfl
  · cases r.players.find? (·.id = s) <;> rfl

/-- Phase outcome of one `updateRace` call: unchanged, or — when racing and
everyone is fully finished after the motion updates — `results`. -/
theorem updateRace_phase (now : ℤ) (rand : TickRand) (r : Room) :
    (updateRace now rand r).1.phase = r.phase ∨
    (r.phase = .race ∧ (updateRace now rand r).1.phase = .results ∧
     (updateRace now rand r).1.players.all (·.fullyFinished) = true ∧
     (updateRace now rand r).1.bots.all (·.fullyFinished) = true) := by
  by_cases hr : r.phase = .race
  · have hg : ¬(r.phase ≠ Phase.race) := fun hc => hc hr
    unfold updateRace
    rw [if_neg hg]
    simp only []
    by_cases hall : ((((r.players.map (tickPlayer now (r.raceStartEpochMs.getD 0)
        ((((if truthyZ r.lastUpdateMs then now - r.lastUpdateMs.getD 0 else 0) : ℤ) : ℚ) / 1000)
        rand)).map Prod.fst).all (·.fullyFinished)) &&
        ((r.bots.map (tickBot now (r.raceStartEpochMs.getD 0)
        ((((if truthyZ r.lastUpdateMs then now - r.lastUpdateMs.getD 0 else 0) : ℤ) : ℚ) / 1000)
        rand)).all (·.fullyFinished))) = true
    · rw [if_pos hall]
      rw [Bool.and_eq_true] at hall
      right
      refine ⟨hr, rfl, ?_, ?_⟩
      · unfold endRace
        rw [all_fullyFinished_map_unready]
        exact hall.1
      · exact hall.2
    · rw [if_neg hall]
      left
      rfl
  · left
    unfold updateRace
    rw [if_pos hr]

/-- C7 (amended): the complete list of phase changes any callback can make.
Beyond the claim's transitions, the host's `returnToLobby` command forces
`lobby` from any phase once at least two players are present, and the
scheduled race start (`setTimeout(startRace)`) sets `race` unconditionally
when it fires. -/
theorem C7_phase_transitions (now : ℤ) (e : Event) (r : Room)
    (hch : (step now e r).1.phase ≠ r.phase) :
    (∃ s, e = .startGame s ∧ r.hostId = some s ∧ r.phase = .lobby ∧
      (step now e r).1.phase = .countdown ∧
      (r.players.length = 1 ∨ (r.players.filter (·.ready)).length = r.players.length)) ∨
    (∃ rand, e = .startRaceFire rand ∧ (step now e r).1.phase = .race) ∨
    (∃ rand, e = .tick rand ∧ r.phase = .race ∧
      (step now e r).1.phase = .results ∧
      (step now e r).1.players.all (·.fullyFinished) = true ∧
      (step now e r).1.bots.all (·.fullyFinished) = true) ∨
    (∃ s, e = .resetGame s ∧ r.hostId = some s ∧ r.phase = .results ∧
      (step now e r).1.phase = .lobby) ∨
    (∃ s, e = .returnToLobby s ∧ r.hostId = some s ∧ 2 ≤ r.players.length ∧
      (step now e r).1.phase = .lobby) ∨
    (∃ c, e = .disconnect c ∧ (step now e r).1.phase = .lobby ∧
      ((step now e r).1.players.length = 0 ∨
        (r.phase = .results ∧ r.hostId = some c))) := by
  cases e with
  | hello cid u =>
    exact absurd (helloHandler_phase cid u now r) hch
  | setReady s rd =>
    exact absurd (setReadyHandler_phase s rd r) hch
  | pressBoost s d a =>
    exact absurd (pressBoostHandler_phase s d a now r) hch
  | rename s u =>
    exact absurd (renameHandler_phase s u r) hch
  | startGame s =>
    by_cases hh : r.hostId = some s
    · by_cases hc : r.players.length ≥ 1 ∧
          (r.players.length = 1 ∨ (r.players.filter (·.ready)).length = r.players.length) ∧
          r.phase = .lobby
      · left
        refine ⟨s, rfl, hh, hc.2.2, ?_, hc.2.1⟩
        show (startGameHandler s now r).1.phase = _
        unfold startGameHandler
        rw [if_neg (by simp [hh]), if_pos hc]
        rfl
      · exfalso
        apply hch
        show (startGameHandler s now r).1.phase = _
        unfold startGameHandler
        rw [if_neg (by simp [hh]), if_neg hc]
    · exfalso
      apply hch
      show (startGameHandler s now r).1.phase = _
      unfold startGameHandler
      rw [if_pos hh]
  | returnToLobby s =>
    by_cases hh : r.hostId = some s
    · by_cases hl : r.players.length ≥ 2
      · right; right; right; right; left
        refine ⟨s, rfl, hh, hl, ?_⟩
        show (returnToLobbyHandler s r).1.phase = _
        unfold returnToLobbyHandler
        rw [if_neg (by simp [hh]), if_pos hl]
      · exfalso
        apply hch
        show (returnToLobbyHandler s r).1.phase = _
        unfold returnToLobbyHandler
        rw [if_neg (by simp [hh]), if_neg hl]
    · exfalso
      apply hch
      show (returnToLobbyHandler s r).1.phase = _
      unfold returnToLobbyHandler
      rw [if_pos hh]
  | resetGame s =>
    by_cases hh : r.hostId = some s
    · by_cases hp : r.phase = .results
      · right; right; right; left
        refine ⟨s, rfl, hh, hp, ?_⟩
        show (resetGameHandler s r).1.phase = _
        unfold resetGameHandler
        rw [if_neg (by simp [hh]), if_pos hp]
      · exfalso
        apply hch
        show (resetGameHandler s r).1.phase = _
        unfold resetGameHandler
        rw [if_neg (by simp [hh]), if_neg hp]
    · exfalso
      apply hch
      show (resetGameHandler s r).1.phase = _
      unfold resetGameHandler
      rw [if_pos hh]
  | disconnect c =>
    cases hf : r.players.find? (·.id = c) with
    | none =>
      exfalso
      apply hch
      show (disconnectHandler c r).1.phase = _
      unfold disconnectHandler
      rw [hf]
    | some player =>
      right; right; right; right; right
      refine ⟨c, rfl, ?_⟩
      have hpid : player.id = c := by
        have := List.find?_some hf
        simpa using this
      have hstep : (step now (.disconnect c) r) = disconnectHandler c r := rfl
      rw [hstep] at hch ⊢
      simp only [disconnectHandler, hf] at hch ⊢
      split_ifs at hch ⊢ with hw h0 hres h0' hres'
      · exact ⟨rfl, Or.inl h0⟩
      · exact ⟨rfl, Or.inr ⟨hres.1, by rw [← hpid]; exact hres.2⟩⟩
      · exact absurd rfl hch
      · exact ⟨rfl, Or.inl h0'⟩
      · exact absurd hres'.2 hw
      · exact absurd rfl hch
  | tick rand =>
    by_cases hr : r.phase = .race
    · have hstep : (step now (.tick rand) r).1 = (updateRace now rand r).1 := by
        show (tickEvent now rand r).1 = _
        unfold tickEvent
        rw [if_pos hr]
      rw [hstep] at hch ⊢
      rcases updateRace_phase now rand r with h1 | h2
      · exact absurd h1 hch
      · right; right; left
        exact ⟨rand, rfl, hr, h2.2.1, h2.2.2.1, h2.2.2.2⟩
    · exfalso
      apply hch
      show (tickEvent now rand r).1.phase = _
      unfold tickEvent
      rw [if_neg hr]
  | startRaceFire rand =>
    right; left
    exact ⟨rand, rfl, rfl⟩

/-- A race-phase room with two players, host 1. -/
def cRoom7 : Room :=
  { createRoom "dev" with phase := .race, hostId := some 1,
                          players := [wPlayer9, wPlayerB],
                          raceStartEpochMs := some 100,
                          lastUpdateMs := some 990, tickActive := true }

/-- Counterexample to C7 as stated: the host's `returnToLobby` command during
the race phase, with two players present (participant count not zero), sets
the phase straight to `lobby` — a race→lobby transition outside the claim's
list. -/
theorem C7_counterexample :
    cRoom7.phase = .race ∧ cRoom7.players.length = 2 ∧
    (step 1000 (.returnToLobby 1) cRoom7).1.phase = .lobby := by
  refine ⟨rfl, rfl, ?_⟩
  decide

def wSRand : StartRand :=
  { seedDraw := fun _ => 7, botDraw1 := fun _ => 1/2, botDraw2 := fun _ => 1/2,
    botDraw3 := fun _ => 1/2 }

/-- Witness for C7: the scheduled race start fires on a lobby room. -/
theorem C7_witness :
    ((step 1000 (.startRaceFire wSRand) wRoom6).1.phase ≠ wRoom6.phase) ∧
    ((∃ s, Event.startRaceFire wSRand = .startGame s ∧ wRoom6.hostId = some s ∧
        wRoom6.phase = .lobby ∧
        (step 1000 (.startRaceFire wSRand) wRoom6).1.phase = .countdown ∧
        (wRoom6.players.length = 1 ∨
          (wRoom6.players.filter (·.ready)).length = wRoom6.players.length)) ∨
     (∃ rand, Event.startRaceFire wSRand = .startRaceFire rand ∧
        (step 1000 (.startRaceFire wSRand) wRoom6).1.phase = .race) ∨
     (∃ rand, Event.startRaceFire wSRand = .tick rand ∧ wRoom6.phase = .race ∧
        (step 1000 (.startRaceFire wSRand) wRoom6).1.phase = .results ∧
        (step 1000 (.startRaceFire wSRand) wRoom6).1.players.all (·.fullyFinished) = true ∧
        (step 1000 (.startRaceFire wSRand) wRoom6).1.bots.all (·.fullyFinished) = true) ∨
     (∃ s, Event.startRaceFire wSRand = .resetGame s ∧ wRoom6.hostId = some s ∧
        wRoom6.phase = .results ∧
        (step 1000 (.startRaceFire wSRand) wRoom6).1.phase = .lobby) ∨
     (∃ s, Event.startRaceFire wSRand = .returnToLobby s ∧ wRoom6.hostId = some s ∧
        2 ≤ wRoom6.players.length ∧
        (step 1000 (.startRaceFire wSRand) wRoom6).1.phase = .lobby) ∨
     (∃ c, Event.startRaceFire wSRand = .disconnect c ∧
        (step 1000 (.startRaceFire wSRand) wRoom6).1.phase = .lobby ∧
        ((step 1000 (.startRaceFire wSRand) wRoom6).1.players.length = 0 ∨
          (wRoom6.phase = .results ∧ wRoom6.hostId = some c)))) := by
  have h : (step 1000 (.startRaceFire wSRand) wRoom6).1.phase ≠ wRoom6.phase := by
    decide
  exact ⟨h, C7_phase_transitions 1000 (.startRaceFire wSRand) wRoom6 h⟩

end WheelHorse
